import Mathlib

/-!
Verification development for the `gaussian_splats` repository.

The Rust sources are shallowly embedded:
* `src/splat_pass.rs` — sort-plan generation (`compute_sort_stages`,
  `build_sort_uniform_data`), pass construction sizes, and the per-frame
  orchestration (`prepare`, `execute`) as command-trace functions;
* `src/gaussian.rs` — the stored→GPU layout adapter, with `f32` arithmetic
  idealised as real arithmetic;
* `src/ply.rs` — the PLY loader over byte lists, with Rust panics modelled
  as `Option.none`.

Machine integers (`u32`, `usize`) are modelled as `Nat`; none of the claims
exercises wraparound, and a comment marks each place where the Rust type
could overflow.
-/

namespace GaussianSplats

/-! ## Sort plan generator (src/splat_pass.rs) -/

/-- Constant `SORT_UNIFORM_ALIGNMENT: u64 = 256` from src/splat_pass.rs. -/
def SORT_UNIFORM_ALIGNMENT : Nat := 256

/-- Constant `WORKGROUP_SIZE: u32 = 256` from src/splat_pass.rs. -/
def WORKGROUP_SIZE : Nat := 256

/-- Constant `SPLAT_SIZE: u64 = 48` from src/splat_pass.rs. -/
def SPLAT_SIZE : Nat := 48

/-- Struct `SortStage` from src/splat_pass.rs: one recorded bitonic stage,
holding only the dynamic offset into the sort-uniform buffer. -/
structure SortStage where
  dynamic_offset : Nat
deriving DecidableEq, Repr

/-- Inner `while comparison_distance >= 1` loop of `compute_sort_stages`
(src/splat_pass.rs lines 637–647): pushes one stage per iteration, at
dynamic offset `stage_index * SORT_UNIFORM_ALIGNMENT`, then halves the
comparison distance. -/
def sortStagesInner (stage_index comparison_distance : Nat) : List SortStage :=
  if h : 1 ≤ comparison_distance then
    SortStage.mk (stage_index * SORT_UNIFORM_ALIGNMENT) ::
      sortStagesInner (stage_index + 1) (comparison_distance / 2)
  else
    []
termination_by comparison_distance
decreasing_by exact Nat.div_lt_self h (by omega)

/-- Outer `for outer_step in 0..log_n` loop of `compute_sort_stages`
(src/splat_pass.rs lines 637–647), with `block_size = 2 << outer_step`. -/
def sortStagesOuter (log_n outer_step stage_index : Nat) : List SortStage :=
  if outer_step < log_n then
    sortStagesInner stage_index ((2 <<< outer_step) / 2) ++
      sortStagesOuter log_n (outer_step + 1)
        (stage_index + (sortStagesInner stage_index ((2 <<< outer_step) / 2)).length)
  else
    []
termination_by log_n - outer_step
decreasing_by omega

/-- `compute_sort_stages` from src/splat_pass.rs (lines 627–650).  The Rust
computes `log_n = (padded_count as f64).log2() as u32`; for every power of
two that fits in `u32` the `f64` logarithm is exact, so it coincides with
`Nat.log2`. -/
def compute_sort_stages (padded_count : Nat) : List SortStage :=
  if padded_count ≤ 1 then []
  else sortStagesOuter (Nat.log2 padded_count) 0 0

/-- Little-endian byte serialisation of a `u32`, as `bytemuck::bytes_of`
produces for each field of `SortUniforms`. -/
def u32le (n : Nat) : List Nat :=
  [n % 256, n / 256 % 256, n / 65536 % 256, n / 16777216 % 256]

/-- Byte image of one `SortUniforms` record (src/splat_pass.rs lines 29–36):
`element_count`, `block_size`, `comparison_distance`, `_pad = 0`, each a
little-endian `u32` (16 bytes total). -/
def sortUniformBytes (element_count block_size comparison_distance : Nat) : List Nat :=
  u32le element_count ++ u32le block_size ++ u32le comparison_distance ++ u32le 0

/-- Inner `while comparison_distance >= 1` loop of `build_sort_uniform_data`
(src/splat_pass.rs lines 661–679): zero-pads the data vector up to
`stage_index * SORT_UNIFORM_ALIGNMENT`, appends the 16 parameter bytes,
then halves the comparison distance.  Returns the data together with the
stage index after the loop. -/
def buildInner (padded_count block_size stage_index comparison_distance : Nat)
    (data : List Nat) : List Nat × Nat :=
  if h : 1 ≤ comparison_distance then
    buildInner padded_count block_size (stage_index + 1) (comparison_distance / 2)
      (data ++ List.replicate (stage_index * SORT_UNIFORM_ALIGNMENT - data.length) 0 ++
        sortUniformBytes padded_count block_size comparison_distance)
  else
    (data, stage_index)
termination_by comparison_distance
decreasing_by exact Nat.div_lt_self h (by omega)

/-- Outer `for outer_step in 0..log_n` loop of `build_sort_uniform_data`
(src/splat_pass.rs lines 661–679). -/
def buildOuter (padded_count log_n outer_step stage_index : Nat) (data : List Nat) :
    List Nat :=
  if outer_step < log_n then
    buildOuter padded_count log_n (outer_step + 1)
      (buildInner padded_count (2 <<< outer_step) stage_index ((2 <<< outer_step) / 2) data).2
      (buildInner padded_count (2 <<< outer_step) stage_index ((2 <<< outer_step) / 2) data).1
  else
    data
termination_by log_n - outer_step
decreasing_by omega

/-- Trailing `while !data.len().is_multiple_of(4)` loop of
`build_sort_uniform_data` (src/splat_pass.rs lines 681–683). -/
def padToMultipleOf4 (data : List Nat) : List Nat :=
  if data.length % 4 = 0 then data else padToMultipleOf4 (data ++ [0])
termination_by (4 - data.length % 4) % 4
decreasing_by simp [List.length_append]; omega

/-- `build_sort_uniform_data` from src/splat_pass.rs (lines 652–686).  As in
`compute_sort_stages`, `log_n` is exact for power-of-two inputs. -/
def build_sort_uniform_data (padded_count : Nat) (stages : List SortStage) : List Nat :=
  if stages.isEmpty then []
  else padToMultipleOf4 (buildOuter padded_count (Nat.log2 padded_count) 0 0 [])

/-- Contents handed to the sort-uniform `create_buffer_init` call in
`SplatPass::new` (src/splat_pass.rs lines 143–153): the built data, or a
256-byte zero dummy when the data is empty. -/
def sort_uniform_buffer_contents (padded_count : Nat) : List Nat :=
  let stages := compute_sort_stages padded_count
  let data := build_sort_uniform_data padded_count stages
  if data.isEmpty then List.replicate 256 0 else data

/-! ### Specification-side closed forms for the sort plan

These are *not* translations of the Rust; they are the clean shapes the two
loop nests are proved equal to, so that the claims can be settled by
computation and arithmetic. -/

/-- Number of stages emitted by the outer loop when it still has `rem`
iterations to go and the current `outer_step` is `outer`: iteration `i`
contributes `outer + i + 1` stages. -/
def countFrom : Nat → Nat → Nat
  | _, 0 => 0
  | outer, rem + 1 => (outer + 1) + countFrom (outer + 1) rem

/-- Parameter pairs `(block_size, comparison_distance)` emitted by the loop
nest from outer step `outer` with `rem` outer iterations remaining. -/
def paramsFrom : Nat → Nat → List (Nat × Nat)
  | _, 0 => []
  | outer, rem + 1 =>
      ((List.range (outer + 1)).map fun t => (2 ^ (outer + 1), 2 ^ (outer - t))) ++
        paramsFrom (outer + 1) rem

/-- Parameter pairs of the whole sort plan for padded count `2 ^ k`. -/
def paramsFor (k : Nat) : List (Nat × Nat) := paramsFrom 0 k

/-- Serialisation of a parameter-block list where every block is preceded by
the 240 zero gap bytes that complete the previous 256-byte slot. -/
def specSortDataAux (N : Nat) : List (Nat × Nat) → List Nat
  | [] => []
  | p :: ps => List.replicate 240 0 ++ sortUniformBytes N p.1 p.2 ++ specSortDataAux N ps

/-- Serialisation of a nonempty parameter-block list: blocks at 256-byte
stride, 240 zero gap bytes between consecutive blocks, nothing after the
final 16-byte block. -/
def specSortData (N : Nat) : List (Nat × Nat) → List Nat
  | [] => []
  | p :: ps => sortUniformBytes N p.1 p.2 ++ specSortDataAux N ps

/-- Little-endian `u32` read at byte offset `off` of a byte list. -/
def readU32le (data : List Nat) (off : Nat) : Nat :=
  data.getD off 0 + 256 * data.getD (off + 1) 0 + 65536 * data.getD (off + 2) 0 +
    16777216 * data.getD (off + 3) 0

/-! ## Splat pass state and per-frame orchestration (src/splat_pass.rs) -/

/-- `u32::next_power_of_two` as used in `SplatPass::new`
(src/splat_pass.rs line 82): `0` and `1` map to `1`, otherwise the least
power of two that is at least the input.  (The Rust function would panic
above `2^31`; no claim exercises that range.) -/
def next_power_of_two (n : Nat) : Nat :=
  if n ≤ 1 then 1 else 2 ^ (Nat.log2 (n - 1) + 1)

/-- The fields of `SplatPass` (src/splat_pass.rs lines 47–69) that the
per-frame logic reads; buffers, pipelines and bind groups are GPU handles
with no CPU-observable state beyond their construction sizes. -/
structure SplatPassState where
  gaussian_count : Nat
  padded_count : Nat
  sort_stages : List SortStage

/-- The count-dependent part of `SplatPass::new` (src/splat_pass.rs lines
76–143): the padded count is the next power of two of the Gaussian count,
and the sort stages are computed from it. -/
def SplatPass.new (gaussianCount : Nat) : SplatPassState :=
  { gaussian_count := gaussianCount
    padded_count := next_power_of_two gaussianCount
    sort_stages := compute_sort_stages (next_power_of_two gaussianCount) }

/-- A 4×4 matrix of `f32` entries, idealised over `ℚ`; `prepare` only copies
entries and forms two products, so exact arithmetic stands in for `f32`. -/
def Mat4 : Type := Fin 4 → Fin 4 → ℚ

/-- View and projection matrices of the active camera, as returned by the
external `query_active_camera_matrices`. -/
structure CameraMatrices where
  view : Mat4
  projection : Mat4

/-- The slice of the external `World` that `SplatPass::prepare` reads: the
active camera query result and the cached viewport size. -/
structure WorldState where
  activeCameraMatrices : Option CameraMatrices
  cachedViewportSize : Option (Nat × Nat)

/-- External query `query_active_camera_matrices(world)`: `None` when the
world has no active camera. -/
def query_active_camera_matrices (world : WorldState) : Option CameraMatrices :=
  world.activeCameraMatrices

/-- Struct `Uniforms` from src/splat_pass.rs (lines 16–27). -/
structure Uniforms where
  view : Mat4
  projection : Mat4
  viewport : ℚ × ℚ
  focal : ℚ × ℚ
  gaussian_count : Nat
  padded_count : Nat
  pad1 : Nat
  pad2 : Nat

/-- GPU buffers owned by the pass (src/splat_pass.rs lines 51–57). -/
inductive BufferId where
  | gaussianBuffer
  | splatBuffer
  | sortKeysBuffer
  | sortValuesBuffer
  | drawIndirectBuffer
  | drawIndirectResetBuffer
  | uniformBuffer
  | sortUniformBuffer
deriving DecidableEq, Repr

/-- Pipelines owned by the pass (src/splat_pass.rs lines 59–62). -/
inductive PipelineId where
  | clearSortPipeline
  | preprocessPipeline
  | sortPipeline
  | renderPipeline
deriving DecidableEq, Repr

/-- A write submitted through the queue during `prepare`. -/
inductive QueueWrite where
  | writeBuffer (buffer : BufferId) (offset : Nat) (uniforms : Uniforms)

/-- `SplatPass::prepare` (src/splat_pass.rs lines 478–507) as the list of
queue writes it performs: nothing when the camera query is empty, otherwise
one full `Uniforms` write at offset 0 of the uniform buffer. -/
def prepare (p : SplatPassState) (world : WorldState) : List QueueWrite :=
  match query_active_camera_matrices world with
  | none => []
  | some cameraMatrices =>
    let viewportSize := world.cachedViewportSize.getD (1920, 1080)
    let viewport_width := viewportSize.1
    let viewport_height := viewportSize.2
    let focal_x := cameraMatrices.projection 0 0 * (viewport_width : ℚ) * (1 / 2)
    let focal_y := cameraMatrices.projection 1 1 * (viewport_height : ℚ) * (1 / 2)
    [QueueWrite.writeBuffer BufferId.uniformBuffer 0
      { view := cameraMatrices.view
        projection := cameraMatrices.projection
        viewport := ((viewport_width : ℚ), (viewport_height : ℚ))
        focal := (focal_x, focal_y)
        gaussian_count := p.gaussian_count
        padded_count := p.padded_count
        pad1 := 0
        pad2 := 0 }]

/-- A command recorded on the encoder during `execute`. -/
inductive Cmd where
  | copyBufferToBuffer (src : BufferId) (srcOffset : Nat) (dst : BufferId)
      (dstOffset : Nat) (size : Nat)
  | computeDispatch (pipeline : PipelineId) (dynamicOffsets : List Nat)
      (x y z : Nat)
  | renderDrawIndirect (pipeline : PipelineId) (buffer : BufferId) (offset : Nat)
deriving DecidableEq, Repr

/-- Attachment availability in the `PassExecutionContext`:
`get_color_attachment` / `get_depth_attachment` may fail. -/
structure ExecContext where
  colorAttachment : Option Unit
  depthAttachment : Option Unit

/-- Error propagated by the `?` operator in `execute` when an attachment
getter fails. -/
inductive ExecError where
  | missingAttachment
deriving DecidableEq, Repr

/-- `u32::div_ceil` as used for workgroup counts. -/
def divCeil (a b : Nat) : Nat := (a + b - 1) / b

/-- `SplatPass::execute` (src/splat_pass.rs lines 509–606) as the pair of
the commands recorded on the encoder and the error, if any, returned through
`?`.  With `gaussian_count == 0` it records nothing and succeeds.  Otherwise
it records the indirect-draw reset copy, the clear-sort dispatch over
`ceil(padded_count / 256)` workgroups, the preprocess dispatch over
`ceil(gaussian_count / 256)` workgroups, one sort dispatch per stage (each
with that stage's dynamic offset, over `ceil((padded_count / 2) / 256)`
workgroups), and — if both attachments resolve — the indirect draw.  The
attachments are fetched only after the compute work is recorded, matching
the source order. -/
def execute (p : SplatPassState) (ctx : ExecContext) : List Cmd × Option ExecError :=
  if p.gaussian_count = 0 then ([], none)
  else
    let computeCmds :=
      Cmd.copyBufferToBuffer BufferId.drawIndirectResetBuffer 0
          BufferId.drawIndirectBuffer 0 16 ::
        Cmd.computeDispatch PipelineId.clearSortPipeline []
          (divCeil p.padded_count WORKGROUP_SIZE) 1 1 ::
        Cmd.computeDispatch PipelineId.preprocessPipeline []
          (divCeil p.gaussian_count WORKGROUP_SIZE) 1 1 ::
        p.sort_stages.map fun stage =>
          Cmd.computeDispatch PipelineId.sortPipeline [stage.dynamic_offset]
            (divCeil (p.padded_count / 2) WORKGROUP_SIZE) 1 1
    match ctx.colorAttachment with
    | none => (computeCmds, some ExecError.missingAttachment)
    | some _ =>
      match ctx.depthAttachment with
      | none => (computeCmds, some ExecError.missingAttachment)
      | some _ =>
        (computeCmds ++
          [Cmd.renderDrawIndirect PipelineId.renderPipeline
            BufferId.drawIndirectBuffer 0], none)

/-! ## Layout adapter (src/gaussian.rs)

The adapter's `f32` arithmetic is idealised as real arithmetic.  At the
concrete inputs used below — the zero quaternion and the unit quaternion —
every `f32` operation the Rust performs is exact, so the idealisation and
the machine computation agree there. -/

/-- Struct `RawGaussian` from src/gaussian.rs (lines 1–11); the quaternion
is stored `(w, x, y, z)` as a 4-tuple. -/
structure RawGaussian where
  position : Fin 3 → ℝ
  normals : Fin 3 → ℝ
  sh_dc : Fin 3 → ℝ
  sh_rest : Fin 45 → ℝ
  opacity : ℝ
  scale : Fin 3 → ℝ
  rotation : ℝ × ℝ × ℝ × ℝ

/-- Struct `GpuGaussian` from src/gaussian.rs (lines 13–23). -/
structure GpuGaussian where
  position : Fin 3 → ℝ
  opacity_logit : ℝ
  sh_dc : Fin 3 → ℝ
  pad0 : ℝ
  scale_log : Fin 3 → ℝ
  pad1 : ℝ
  rotation : ℝ × ℝ × ℝ × ℝ

/-- Sum of squares of a quaternion's components, `w² + x² + y² + z²`. -/
def rotNormSq (q : ℝ × ℝ × ℝ × ℝ) : ℝ :=
  q.1 * q.1 + q.2.1 * q.2.1 + q.2.2.1 * q.2.2.1 + q.2.2.2 * q.2.2.2

/-- The clamped length `(qw*qw + qx*qx + qy*qy + qz*qz).sqrt().max(1e-8)`
from src/gaussian.rs line 28. -/
noncomputable def adaptLength (raw : RawGaussian) : ℝ :=
  max (Real.sqrt (rotNormSq raw.rotation)) (1 / 100000000)

/-- `impl From<&RawGaussian> for GpuGaussian` (src/gaussian.rs lines 25–39):
copy position, opacity, DC colour and log-scale, zero both pads, and divide
each quaternion component by the clamped length. -/
noncomputable def gpuOfRaw (raw : RawGaussian) : GpuGaussian :=
  { position := raw.position
    opacity_logit := raw.opacity
    sh_dc := raw.sh_dc
    pad0 := 0
    scale_log := raw.scale
    pad1 := 0
    rotation :=
      (raw.rotation.1 / adaptLength raw, raw.rotation.2.1 / adaptLength raw,
        raw.rotation.2.2.1 / adaptLength raw, raw.rotation.2.2.2 / adaptLength raw) }

/-- Length of the adapted quaternion. -/
noncomputable def quatNorm (g : GpuGaussian) : ℝ :=
  Real.sqrt (rotNormSq g.rotation)

/-! ## PLY loader (src/ply.rs)

Bytes are modelled as `List Nat` (each entry < 256 in every input of
interest), Rust panics as `Option.none`, and `&str` values as the list of
Unicode code points obtained by UTF-8 decoding. -/

/-- Rust `<[u8]>::starts_with`-style check: does `needle` occur at the head
of `l`? -/
def listStartsWith : List Nat → List Nat → Bool
  | [], _ => true
  | _ :: _, [] => false
  | p :: ps, x :: xs => p == x && listStartsWith ps xs

/-- Index of the first window of `data` equal to `needle`, as computed by
`data.windows(needle.len()).position(…)` in `find_header_end`; `needle` is
nonempty at both call sites. -/
def findSubseqIdx (needle : List Nat) : List Nat → Option Nat
  | [] => none
  | x :: rest =>
    if listStartsWith needle (x :: rest) then some 0
    else (findSubseqIdx needle rest).map (· + 1)

/-- The byte sequence `b"end_header\r\n"` (src/ply.rs line 37). -/
def endHeaderCrlfNeedle : List Nat := [101, 110, 100, 95, 104, 101, 97, 100, 101, 114, 13, 10]

/-- The byte sequence `b"end_header\n"` (src/ply.rs line 36). -/
def endHeaderLfNeedle : List Nat := [101, 110, 100, 95, 104, 101, 97, 100, 101, 114, 10]

/-- `find_header_end` from src/ply.rs (lines 35–54): first search the whole
input for `end_header\r\n`, and only if that never occurs search for
`end_header\n`; pair the position found with the line-ending length.
`none` models the panic when neither occurs. -/
def find_header_end (data : List Nat) : Option (Nat × Nat) :=
  match findSubseqIdx endHeaderCrlfNeedle data with
  | some position => some (position, 2)
  | none =>
    match findSubseqIdx endHeaderLfNeedle data with
    | some position => some (position, 1)
    | none => none

/-- UTF-8 decoding of a byte list into code points, with the exact
well-formedness ranges `std::str::from_utf8` enforces (RFC 3629: no
overlongs, no surrogates, maximum U+10FFFF); `none` models the decode
failure that `load_ply_from_bytes` turns into a panic. -/
def utf8Decode : List Nat → Option (List Nat)
  | [] => some []
  | b0 :: rest =>
    if b0 < 128 then
      (utf8Decode rest).map fun tail => b0 :: tail
    else if b0 < 194 then none
    else if b0 ≤ 223 then
      match rest with
      | [] => none
      | b1 :: rest1 =>
        if 128 ≤ b1 ∧ b1 ≤ 191 then
          (utf8Decode rest1).map fun tail => ((b0 - 192) * 64 + (b1 - 128)) :: tail
        else none
    else if b0 ≤ 239 then
      match rest with
      | b1 :: b2 :: rest2 =>
        let lo1 := if b0 = 224 then 160 else 128
        let hi1 := if b0 = 237 then 159 else 191
        if lo1 ≤ b1 ∧ b1 ≤ hi1 ∧ 128 ≤ b2 ∧ b2 ≤ 191 then
          (utf8Decode rest2).map fun tail =>
            ((b0 - 224) * 4096 + (b1 - 128) * 64 + (b2 - 128)) :: tail
        else none
      | _ => none
    else if b0 ≤ 244 then
      match rest with
      | b1 :: b2 :: b3 :: rest3 =>
        let lo1 := if b0 = 240 then 144 else 128
        let hi1 := if b0 = 244 then 143 else 191
        if lo1 ≤ b1 ∧ b1 ≤ hi1 ∧ 128 ≤ b2 ∧ b2 ≤ 191 ∧ 128 ≤ b3 ∧ b3 ≤ 191 then
          (utf8Decode rest3).map fun tail =>
            ((b0 - 240) * 262144 + (b1 - 128) * 4096 + (b2 - 128) * 64 + (b3 - 128)) :: tail
        else none
      | _ => none
    else none

/-- Drop a final carriage return, as `str::lines` does for a line that ended
in `\r\n`. -/
def stripTrailingCr (l : List Nat) : List Nat :=
  if l.getLast? = some 13 then l.dropLast else l

/-- Accumulator loop behind `strLines`: `acc` holds the current line
reversed. -/
def linesAux : List Nat → List Nat → List (List Nat)
  | acc, [] => if acc.isEmpty then [] else [acc.reverse]
  | acc, c :: rest =>
    if c = 10 then stripTrailingCr acc.reverse :: linesAux [] rest
    else linesAux (c :: acc) rest

/-- Rust `str::lines` over code points: split at `\n`, strip a `\r` that
immediately preceded a `\n`, no empty final line for a trailing
terminator. -/
def strLines (s : List Nat) : List (List Nat) := linesAux [] s

/-- The Unicode `White_Space` property, which Rust's `char::is_whitespace`
(and hence `str::trim`) tests. -/
def isRustWhitespace (c : Nat) : Bool :=
  decide (c = 9) || decide (c = 10) || decide (c = 11) || decide (c = 12) ||
    decide (c = 13) || decide (c = 32) || decide (c = 133) || decide (c = 160) ||
    decide (c = 5760) || (decide (8192 ≤ c) && decide (c ≤ 8202)) ||
    decide (c = 8232) || decide (c = 8233) || decide (c = 8239) ||
    decide (c = 8287) || decide (c = 12288)

/-- Rust `str::trim` over code points. -/
def strTrim (l : List Nat) : List Nat :=
  ((l.dropWhile isRustWhitespace).reverse.dropWhile isRustWhitespace).reverse

/-- The code points of `"element vertex "` (src/ply.rs line 59). -/
def elementVertexTag : List Nat :=
  [101, 108, 101, 109, 101, 110, 116, 32, 118, 101, 114, 116, 101, 120, 32]

/-- Are all code points ASCII digits? -/
def allDigits : List Nat → Bool
  | [] => true
  | c :: rest => (decide (48 ≤ c) && decide (c ≤ 57)) && allDigits rest

/-- Numeric value of a digit string. -/
def digitsVal (l : List Nat) : Nat :=
  l.foldl (fun acc c => acc * 10 + (c - 48)) 0

/-- Rust `str::parse::<usize>`: an optional leading `+`, then one or more
ASCII digits, rejecting values that overflow the (64-bit) `usize`. -/
def parseUsize (l : List Nat) : Option Nat :=
  let digits := match l with
    | 43 :: rest => rest
    | _ => l
  if digits.isEmpty then none
  else if allDigits digits then
    if digitsVal digits < 18446744073709551616 then some (digitsVal digits) else none
  else none

/-- The loop of `parse_vertex_count` (src/ply.rs lines 56–70) over the
header's lines: trim each line, return the parsed count of the first line
starting with `"element vertex "`, and fail — modelling the panics — when
that parse fails or no line matches. -/
def parse_vertex_count : List (List Nat) → Option Nat
  | [] => none
  | line :: rest =>
    let trimmed := strTrim line
    if listStartsWith elementVertexTag trimmed then
      parseUsize (strTrim (trimmed.drop elementVertexTag.length))
    else parse_vertex_count rest

/-- The `bytemuck::cast_slice` view of the body's first
`vertex_count * 248` bytes as `vertex_count` records of 248 bytes each
(`size_of::<RawGaussian>() = 62 * 4 = 248`). -/
def chunkRecords : Nat → List Nat → List (List Nat)
  | 0, _ => []
  | n + 1, l => l.take 248 :: chunkRecords n (l.drop 248)

/-- `load_ply_from_bytes` from src/ply.rs (lines 3–25): find the header
terminator, decode the header as UTF-8, parse the declared vertex count,
then — provided the body holds at least `vertex_count * 248` bytes — return
the body's first `vertex_count` 248-byte records.  `none` models every
panic path (`expect`, `assert!`).  The body starts at
`header_end + "end_header".len() + line_ending_len`, with
`"end_header".len() = 10`. -/
def load_ply_from_bytes (data : List Nat) : Option (List (List Nat)) :=
  match find_header_end data with
  | none => none
  | some (header_end, line_ending_len) =>
    match utf8Decode (data.take header_end) with
    | none => none
    | some header_str =>
      match parse_vertex_count (strLines header_str) with
      | none => none
      | some vertex_count =>
        let body_start := header_end + 10 + line_ending_len
        let body := data.drop body_start
        let expected_size := vertex_count * 248
        if expected_size ≤ body.length then
          some (chunkRecords vertex_count (body.take expected_size))
        else none

/-! ## Concrete instances used by the claim theorems -/

/-- A world with no active camera and no cached viewport size. -/
def worldNoCamera : WorldState :=
  { activeCameraMatrices := none, cachedViewportSize := none }

/-- An execution context in which both attachment getters succeed. -/
def ctxBothAttachments : ExecContext :=
  { colorAttachment := some (), depthAttachment := some () }

/-- A stored Gaussian whose quaternion is `(0, 0, 0, 0)` and whose other
attributes are zero. -/
noncomputable def rawZeroQuat : RawGaussian :=
  { position := fun _ => 0, normals := fun _ => 0, sh_dc := fun _ => 0,
    sh_rest := fun _ => 0, opacity := 0, scale := fun _ => 0,
    rotation := (0, 0, 0, 0) }

/-- A stored Gaussian whose quaternion is the unit `(1, 0, 0, 0)` and whose
other attributes are zero. -/
noncomputable def rawUnitQuat : RawGaussian :=
  { position := fun _ => 0, normals := fun _ => 0, sh_dc := fun _ => 0,
    sh_rest := fun _ => 0, opacity := 0, scale := fun _ => 0,
    rotation := (1, 0, 0, 0) }

/-- The bytes of an ASCII header line `element vertex <digits>`, newline
terminated. -/
def evLine (digits : List Nat) : List Nat :=
  [101, 108, 101, 109, 101, 110, 116, 32, 118, 101, 114, 116, 101, 120, 32] ++ digits ++ [10]

/-- PLY input declaring one vertex whose body holds 249 bytes — one byte
more than one 248-byte record. -/
def plyOneVertex249 : List Nat :=
  evLine [49] ++ endHeaderLfNeedle ++ List.replicate 249 0

/-- PLY input declaring zero vertices whose body holds one byte. -/
def plyZeroVertex1 : List Nat :=
  evLine [48] ++ endHeaderLfNeedle ++ [0]

/-- PLY input declaring one vertex whose body holds exactly 248 bytes. -/
def plyOneVertex248 : List Nat :=
  evLine [49] ++ endHeaderLfNeedle ++ List.replicate 248 0

/-- Input whose LF header terminator at offset 0 is followed by an
`end_header` + CRLF byte sequence at offset 11. -/
def plyCrlfInBody : List Nat :=
  endHeaderLfNeedle ++ endHeaderCrlfNeedle

/-- The needle `needle` occurs in `data` at position `p`. -/
def needleAt (needle data : List Nat) (p : Nat) : Prop :=
  listStartsWith needle (data.drop p) = true

/-! ## Characterisation of the sort plan -/

/-- The shift `2 << outer_step` computes `2 ^ (outer_step + 1)`. -/
lemma two_shiftLeft (o : Nat) : 2 <<< o = 2 ^ (o + 1) := by
  rw [Nat.shiftLeft_eq, pow_succ, mul_comm]

/-- The inner stage loop, started at a power-of-two comparison distance
`2 ^ j`, emits `j + 1` stages at consecutive 256-byte offsets. -/
lemma sortStagesInner_pow (j : Nat) : ∀ si : Nat,
    sortStagesInner si (2 ^ j) =
      (List.range (j + 1)).map fun t => SortStage.mk ((si + t) * 256) := by
  induction j with
  | zero =>
    intro si
    rw [sortStagesInner]
    rw [dif_pos (by norm_num)]
    rw [sortStagesInner]
    rw [dif_neg (by norm_num)]
    simp [SORT_UNIFORM_ALIGNMENT, List.range_succ]
  | succ j ih =>
    intro si
    rw [sortStagesInner]
    have h1 : 1 ≤ 2 ^ (j + 1) := Nat.one_le_two_pow
    have h2 : 2 ^ (j + 1) / 2 = 2 ^ j := by
      rw [pow_succ, Nat.mul_div_cancel _ (by norm_num)]
    rw [dif_pos h1, h2, ih (si + 1)]
    conv_rhs => rw [List.range_succ_eq_map, List.map_cons, List.map_map]
    refine List.cons_eq_cons.mpr ⟨by simp [SORT_UNIFORM_ALIGNMENT], ?_⟩
    refine List.map_congr_left fun t _ => ?_
    simp only [Function.comp_apply, SortStage.mk.injEq]
    omega

/-- Stage-count recursion matches `countFrom`. -/
lemma two_mul_countFrom (rem : Nat) : ∀ outer : Nat,
    2 * countFrom outer rem = rem * (2 * outer + rem + 1) := by
  induction rem with
  | zero => intro outer; simp [countFrom]
  | succ rem ih =>
    intro outer
    rw [countFrom, Nat.mul_add, ih (outer + 1)]
    ring

/-- The outer stage loop, with `rem` iterations remaining from outer step
`outer`, emits `countFrom outer rem` stages at consecutive 256-byte
offsets. -/
lemma sortStagesOuter_eq (rem : Nat) : ∀ outer si : Nat,
    sortStagesOuter (outer + rem) outer si =
      (List.range (countFrom outer rem)).map fun t => SortStage.mk ((si + t) * 256) := by
  induction rem with
  | zero =>
    intro outer si
    rw [sortStagesOuter]
    simp [countFrom]
  | succ rem ih =>
    intro outer si
    rw [sortStagesOuter]
    rw [if_pos (by omega)]
    have hb : (2 <<< outer) / 2 = 2 ^ outer := by
      rw [two_shiftLeft, pow_succ, Nat.mul_div_cancel _ (by norm_num)]
    rw [hb, sortStagesInner_pow]
    have hlen : ((List.range (outer + 1)).map fun t => SortStage.mk ((si + t) * 256)).length
        = outer + 1 := by simp
    rw [hlen]
    have harg : outer + (rem + 1) = (outer + 1) + rem := by omega
    rw [harg, ih (outer + 1) (si + (outer + 1))]
    conv_rhs => rw [countFrom, List.range_add, List.map_append, List.map_map]
    refine congrArg₂ (· ++ ·) rfl ?_
    refine List.map_congr_left fun t _ => ?_
    simp only [Function.comp_apply, SortStage.mk.injEq]
    omega

/-- `compute_sort_stages` at padded count `2 ^ k` is the list of
`countFrom 0 k` stages whose `i`-th dynamic offset is `i * 256`. -/
lemma compute_sort_stages_pow (k : Nat) :
    compute_sort_stages (2 ^ k) =
      (List.range (countFrom 0 k)).map fun t => SortStage.mk (t * 256) := by
  cases k with
  | zero => simp [compute_sort_stages, countFrom]
  | succ j =>
    rw [compute_sort_stages]
    rw [if_neg (by have := Nat.one_lt_two_pow_iff (n := j + 1); omega)]
    have hl : Nat.log2 (2 ^ (j + 1)) = j + 1 := by
      rw [Nat.log2_eq_log_two, Nat.log_pow (by norm_num)]
    rw [hl]
    have := sortStagesOuter_eq (j + 1) 0 0
    simpa using this

/-! ## Characterisation of the sort-uniform data -/

/-- One serialised parameter block is 16 bytes. -/
lemma sortUniformBytes_length (a b c : Nat) : (sortUniformBytes a b c).length = 16 := by
  simp [sortUniformBytes, u32le]

/-- Gap-prefixed serialisation length: 256 bytes per block. -/
lemma specSortDataAux_length (N : Nat) : ∀ ps : List (Nat × Nat),
    (specSortDataAux N ps).length = ps.length * 256 := by
  intro ps
  induction ps with
  | nil => simp [specSortDataAux]
  | cons p ps ih =>
    rw [specSortDataAux, List.length_append, List.length_append, List.length_replicate,
      sortUniformBytes_length, ih, List.length_cons]
    ring

/-- Serialisation length: 256 bytes per block except the last, which takes
only its 16 parameter bytes. -/
lemma specSortData_length (N : Nat) (ps : List (Nat × Nat)) :
    (specSortData N ps).length = if ps.isEmpty then 0 else (ps.length - 1) * 256 + 16 := by
  cases ps with
  | nil => simp [specSortData]
  | cons p ps =>
    rw [specSortData, List.length_append, sortUniformBytes_length, specSortDataAux_length,
      List.isEmpty_cons]
    simp only [Bool.false_eq_true, if_false, List.length_cons]
    omega

/-- The gap-prefixed serialisation distributes over append. -/
lemma specSortDataAux_append (N : Nat) (xs ys : List (Nat × Nat)) :
    specSortDataAux N (xs ++ ys) = specSortDataAux N xs ++ specSortDataAux N ys := by
  induction xs with
  | nil => simp [specSortDataAux]
  | cons x xs ih =>
    rw [List.cons_append, specSortDataAux, specSortDataAux, ih]
    simp only [List.append_assoc]

/-- For a nonempty list the gap-prefixed serialisation is the 240-byte gap
followed by the plain serialisation. -/
lemma specSortDataAux_eq_gap (N : Nat) (ps : List (Nat × Nat)) (h : ps ≠ []) :
    specSortDataAux N ps = List.replicate 240 0 ++ specSortData N ps := by
  cases ps with
  | nil => exact absurd rfl h
  | cons p ps =>
    rw [specSortDataAux, specSortData, List.append_assoc]

/-- Serialisation of an append whose first part is nonempty. -/
lemma specSortData_append (N : Nat) (xs ys : List (Nat × Nat)) (h : xs ≠ []) :
    specSortData N (xs ++ ys) = specSortData N xs ++ specSortDataAux N ys := by
  cases xs with
  | nil => exact absurd rfl h
  | cons x xs =>
    rw [List.cons_append, specSortData, specSortData, specSortDataAux_append,
      List.append_assoc]

/-- The inner build loop, started at comparison distance `2 ^ j` on data not
extending past the slot at `stage_index * 256`, zero-pads to that slot and
appends the blocks for comparison distances `2 ^ j, …, 1` at 256-byte
stride. -/
lemma buildInner_pow (N block : Nat) (j : Nat) : ∀ si : Nat, ∀ data : List Nat,
    data.length ≤ si * 256 →
    buildInner N block si (2 ^ j) data =
      (data ++ List.replicate (si * 256 - data.length) 0 ++
        specSortData N ((List.range (j + 1)).map fun t => (block, 2 ^ (j - t))),
        si + (j + 1)) := by
  induction j with
  | zero =>
    intro si data h
    rw [buildInner, dif_pos (by norm_num)]
    rw [buildInner, dif_neg (by norm_num)]
    simp [SORT_UNIFORM_ALIGNMENT, specSortData, specSortDataAux, List.range_succ]
  | succ j ih =>
    intro si data h
    rw [buildInner, dif_pos Nat.one_le_two_pow]
    have h2 : 2 ^ (j + 1) / 2 = 2 ^ j := by
      rw [pow_succ, Nat.mul_div_cancel _ (by norm_num)]
    rw [h2]
    have hlen1 : (data ++ List.replicate (si * SORT_UNIFORM_ALIGNMENT - data.length) 0 ++
        sortUniformBytes N block (2 ^ (j + 1))).length = si * 256 + 16 := by
      simp [SORT_UNIFORM_ALIGNMENT, sortUniformBytes_length]
      omega
    rw [ih (si + 1) _ (by rw [hlen1]; omega)]
    rw [hlen1]
    have hgap : (si + 1) * 256 - (si * 256 + 16) = 240 := by omega
    rw [hgap]
    conv_rhs => rw [List.range_succ_eq_map, List.map_cons, List.map_map]
    have hmap : ((List.range (j + 1)).map ((fun t => (block, 2 ^ (j + 1 - t))) ∘ Nat.succ)) =
        (List.range (j + 1)).map fun t => (block, 2 ^ (j - t)) := by
      refine List.map_congr_left fun t _ => ?_
      simp [Nat.succ_sub_succ]
    rw [hmap, specSortData]
    rw [specSortDataAux_eq_gap N _ (by simp)]
    refine Prod.ext ?_ (by omega)
    show _ ++ List.replicate 240 0 ++ _ = _
    simp only [SORT_UNIFORM_ALIGNMENT, List.append_assoc, Nat.sub_zero]

/-- The outer build loop with no iterations remaining returns its data. -/
lemma buildOuter_last (N outer si : Nat) (data : List Nat) :
    buildOuter N outer outer si data = data := by
  rw [buildOuter, if_neg (by omega)]

/-- `paramsFrom` is nonempty whenever at least one outer iteration
remains. -/
lemma paramsFrom_ne_nil (outer rem : Nat) (h : 1 ≤ rem) : paramsFrom outer rem ≠ [] := by
  cases rem with
  | zero => omega
  | succ rem =>
    rw [paramsFrom]
    simp [List.range_succ]

/-- The outer build loop, with `rem + 1` iterations remaining from outer
step `outer` on data not extending past the slot at `stage_index * 256`,
zero-pads to that slot and appends the serialisation of all remaining
parameter blocks. -/
lemma buildOuter_pow (N : Nat) (rem : Nat) : ∀ outer si : Nat, ∀ data : List Nat,
    data.length ≤ si * 256 →
    buildOuter N (outer + (rem + 1)) outer si data =
      data ++ List.replicate (si * 256 - data.length) 0 ++
        specSortData N (paramsFrom outer (rem + 1)) := by
  induction rem with
  | zero =>
    intro outer si data h
    rw [buildOuter, if_pos (by omega)]
    have hb : (2 <<< outer) / 2 = 2 ^ outer := by
      rw [two_shiftLeft, pow_succ, Nat.mul_div_cancel _ (by norm_num)]
    rw [hb, two_shiftLeft, buildInner_pow N _ outer si data h]
    rw [buildOuter_last]
    rw [paramsFrom, paramsFrom]
    simp
  | succ rem ih =>
    intro outer si data h
    rw [buildOuter, if_pos (by omega)]
    have hb : (2 <<< outer) / 2 = 2 ^ outer := by
      rw [two_shiftLeft, pow_succ, Nat.mul_div_cancel _ (by norm_num)]
    rw [hb, two_shiftLeft, buildInner_pow N _ outer si data h]
    have hlen : (data ++ List.replicate (si * 256 - data.length) 0 ++
        specSortData N ((List.range (outer + 1)).map fun t => (2 ^ (outer + 1), 2 ^ (outer - t)))).length
        = (si + outer) * 256 + 16 := by
      rw [List.length_append, List.length_append, List.length_replicate, specSortData_length]
      simp
      omega
    have harg : outer + (rem + 1 + 1) = (outer + 1) + (rem + 1) := by omega
    rw [harg, ih (outer + 1) (si + (outer + 1)) _ (by rw [hlen]; ring_nf; omega)]
    rw [hlen]
    have hgap : (si + (outer + 1)) * 256 - ((si + outer) * 256 + 16) = 240 := by ring_nf; omega
    rw [hgap]
    conv_rhs => rw [paramsFrom]
    rw [specSortData_append N _ _ (by simp [List.range_succ])]
    rw [specSortDataAux_eq_gap N _ (paramsFrom_ne_nil (outer + 1) (rem + 1) (by omega))]
    simp only [List.append_assoc]

/-- `padToMultipleOf4` leaves 4-aligned data unchanged. -/
lemma padToMultipleOf4_eq_self (data : List Nat) (h : data.length % 4 = 0) :
    padToMultipleOf4 data = data := by
  rw [padToMultipleOf4, if_pos h]

/-- `countFrom` counts the parameter blocks. -/
lemma paramsFrom_length (rem : Nat) : ∀ outer : Nat,
    (paramsFrom outer rem).length = countFrom outer rem := by
  induction rem with
  | zero => intro outer; simp [paramsFrom, countFrom]
  | succ rem ih =>
    intro outer
    rw [paramsFrom, countFrom]
    simp [ih (outer + 1)]

/-- `build_sort_uniform_data` at padded count `2 ^ k`, applied to the stages
the pass computes, is exactly the 256-byte-stride serialisation of the
plan's parameter blocks. -/
lemma build_sort_uniform_data_pow (k : Nat) :
    build_sort_uniform_data (2 ^ k) (compute_sort_stages (2 ^ k)) =
      specSortData (2 ^ k) (paramsFor k) := by
  cases k with
  | zero =>
    rw [build_sort_uniform_data]
    simp [compute_sort_stages, paramsFor, paramsFrom, specSortData]
  | succ j =>
    rw [build_sort_uniform_data]
    have hne : ¬ (compute_sort_stages (2 ^ (j + 1))).isEmpty = true := by
      rw [compute_sort_stages_pow]
      have hc : 1 ≤ countFrom 0 (j + 1) := by
        have := two_mul_countFrom (j + 1) 0
        nlinarith
      simp [List.isEmpty_iff]
      intro hcontra
      omega
    rw [if_neg (by simpa using hne)]
    have hl : Nat.log2 (2 ^ (j + 1)) = j + 1 := by
      rw [Nat.log2_eq_log_two, Nat.log_pow (by norm_num)]
    rw [hl]
    have h0 : ([] : List Nat).length ≤ 0 * 256 := by simp
    have := buildOuter_pow (2 ^ (j + 1)) j 0 0 [] h0
    simp only [Nat.zero_add] at this
    rw [this]
    rw [padToMultipleOf4_eq_self]
    · simp [paramsFor]
    · rw [List.length_append, List.length_append, specSortData_length]
      have hne2 : ¬ (paramsFrom 0 (j + 1)).isEmpty = true := by
        simpa [List.isEmpty_iff] using paramsFrom_ne_nil 0 (j + 1) (by omega)
      simp [hne2]
      omega

/-- Element `i` of `(List.range n).map f` with a default. -/
lemma getD_map_range {α : Type} (f : Nat → α) (n i : Nat) (h : i < n) (d : α) :
    ((List.range n).map f).getD i d = f i := by
  rw [List.getD_eq_getElem?_getD, List.getElem?_map, List.getElem?_range h]
  rfl

/-- The 16 bytes at offset `i * 256` of the serialisation are the `i`-th
parameter block. -/
lemma specSortData_block (N : Nat) : ∀ ps : List (Nat × Nat), ∀ i : Nat, i < ps.length →
    List.take 16 (List.drop (i * 256) (specSortData N ps)) =
      sortUniformBytes N (ps.getD i (0, 0)).1 (ps.getD i (0, 0)).2 := by
  intro ps
  induction ps with
  | nil => intro i h; simp at h
  | cons p tail ih =>
    intro i h
    cases i with
    | zero =>
      rw [specSortData]
      simp only [Nat.zero_mul, List.drop_zero, List.getD_cons_zero]
      rw [show (16 : Nat) = (sortUniformBytes N p.1 p.2).length from
        (sortUniformBytes_length N p.1 p.2).symm]
      exact List.take_left _ _
    | succ i =>
      have htail : tail ≠ [] := by
        intro hq
        subst hq
        simp at h
      rw [specSortData, specSortDataAux_eq_gap N tail htail, ← List.append_assoc]
      have hlen : (sortUniformBytes N p.1 p.2 ++ List.replicate 240 0).length = 256 := by
        rw [List.length_append, sortUniformBytes_length, List.length_replicate]
      have hdrop :
          List.drop ((i + 1) * 256)
              ((sortUniformBytes N p.1 p.2 ++ List.replicate 240 0) ++ specSortData N tail) =
            List.drop (i * 256) (specSortData N tail) := by
        rw [List.drop_append_eq_append_drop, List.drop_of_length_le (by rw [hlen]; omega),
          hlen]
        simp only [List.nil_append]
        rw [show (i + 1) * 256 - 256 = i * 256 from by omega]
      rw [hdrop, List.getD_cons_succ]
      exact ih i (by simpa using h)

/-- Every data byte whose offset within its 256-byte slot is at least 16 —
every gap byte — is zero. -/
lemma specSortData_gap (N : Nat) : ∀ ps : List (Nat × Nat), ∀ j : Nat,
    j < (specSortData N ps).length → 16 ≤ j % 256 →
    (specSortData N ps).getD j 1 = 0 := by
  intro ps
  induction ps with
  | nil =>
    intro j hj _
    simp [specSortData] at hj
  | cons p tail ih =>
    intro j hj hmod
    by_cases htail : tail = []
    · subst htail
      rw [specSortData] at hj ⊢
      simp only [specSortDataAux, List.append_nil] at hj ⊢
      rw [sortUniformBytes_length] at hj
      omega
    · rw [specSortData, specSortDataAux_eq_gap N tail htail, ← List.append_assoc] at hj ⊢
      have hlen : (sortUniformBytes N p.1 p.2 ++ List.replicate 240 0).length = 256 := by
        rw [List.length_append, sortUniformBytes_length, List.length_replicate]
      by_cases hj256 : j < 256
      · have hj16 : 16 ≤ j := by omega
        rw [List.getD_append _ _ _ _ (by rw [hlen]; omega)]
        rw [List.getD_append_right _ _ _ _ (by rw [sortUniformBytes_length]; omega)]
        rw [sortUniformBytes_length]
        rw [List.getD_eq_getElem?_getD, List.getElem?_replicate, if_pos (by omega)]
        rfl
      · rw [List.getD_append_right _ _ _ _ (by rw [hlen]; omega), hlen]
        rw [List.length_append, hlen] at hj
        exact ih (j - 256) (by omega) (by omega)

/-! ## Claim theorems: sort plan -/

/-- C2: for every padded count `N = 2 ^ k` (hence every `N ≥ 1`),
`compute_sort_stages` produces exactly `log2 N · (log2 N + 1) / 2` stages;
in particular 0 stages for `N = 1`, 1 stage for `N = 2`, and 6 stages for
`N = 8`. -/
theorem sort_stage_count (k : Nat) :
    (compute_sort_stages (2 ^ k)).length =
      Nat.log2 (2 ^ k) * (Nat.log2 (2 ^ k) + 1) / 2 ∧
    (compute_sort_stages 1).length = 0 ∧
    (compute_sort_stages 2).length = 1 ∧
    (compute_sort_stages 8).length = 6 := by
  have hlen : ∀ m : Nat, (compute_sort_stages (2 ^ m)).length = countFrom 0 m := by
    intro m
    rw [compute_sort_stages_pow]
    simp
  have hlog : ∀ m : Nat, Nat.log2 (2 ^ m) = m := by
    intro m
    rw [Nat.log2_eq_log_two, Nat.log_pow (by norm_num)]
  refine ⟨?_, ?_, ?_, ?_⟩
  · rw [hlen k, hlog k]
    have h := two_mul_countFrom k 0
    norm_num at h
    omega
  · have := hlen 0
    simp only [pow_zero] at this
    rw [this]
    decide
  · have := hlen 1
    simp only [pow_one] at this
    rw [this]
    decide
  · have := hlen 3
    norm_num at this
    rw [this]
    decide

/-- C3 counterexample: at padded count 2 there is exactly one sort stage,
yet the sort-uniform buffer holds 16 bytes, not `1 × 256`. -/
theorem sort_uniform_size_counterexample :
    (compute_sort_stages 2).length = 1 ∧
    (sort_uniform_buffer_contents 2).length = 16 ∧
    (sort_uniform_buffer_contents 2).length ≠ (compute_sort_stages 2).length * 256 := by
  have h2 : (2 : Nat) = 2 ^ 1 := by norm_num
  have hs : (compute_sort_stages 2).length = 1 := by
    rw [h2, compute_sort_stages_pow]
    decide
  have hc : sort_uniform_buffer_contents 2 = specSortData 2 (paramsFor 1) := by
    simp only [sort_uniform_buffer_contents]
    rw [h2, build_sort_uniform_data_pow 1]
    rw [if_neg (by decide)]
  refine ⟨hs, ?_, ?_⟩
  · rw [hc]
    decide
  · rw [hc, hs]
    decide

/-- C3 amended: the sort-uniform buffer holds
`(stage_count − 1) × 256 + 16` bytes whenever at least one stage exists
(the final parameter block is not padded out to the 256-byte stride), and is
the 256-byte zero-filled dummy allocation when no stages exist. -/
theorem sort_uniform_size (k : Nat) :
    (sort_uniform_buffer_contents (2 ^ k)).length =
      (if (compute_sort_stages (2 ^ k)).length = 0 then 256
       else ((compute_sort_stages (2 ^ k)).length - 1) * 256 + 16) ∧
    sort_uniform_buffer_contents 1 = List.replicate 256 0 := by
  have hlen : (compute_sort_stages (2 ^ k)).length = countFrom 0 k := by
    rw [compute_sort_stages_pow]
    simp
  have hplen : (paramsFor k).length = countFrom 0 k := paramsFrom_length k 0
  constructor
  · simp only [sort_uniform_buffer_contents]
    rw [build_sort_uniform_data_pow k, hlen]
    rcases Nat.eq_zero_or_pos (countFrom 0 k) with h0 | hpos
    · have hnil : paramsFor k = [] := by
        rw [← List.length_eq_zero, hplen, h0]
      rw [hnil]
      rw [if_pos (show (specSortData (2 ^ k) []).isEmpty = true from rfl), if_pos h0]
      simp only [List.length_replicate]
    · have hne : paramsFor k ≠ [] := by
        intro hq
        rw [hq] at hplen
        simp at hplen
        omega
      have hemp : (specSortData (2 ^ k) (paramsFor k)).isEmpty = false := by
        refine List.isEmpty_eq_false.mpr ?_
        intro hq
        have hsl := specSortData_length (2 ^ k) (paramsFor k)
        rw [hq, List.isEmpty_eq_false.mpr hne] at hsl
        simp at hsl
      rw [hemp]
      simp only [Bool.false_eq_true, if_false]
      rw [specSortData_length, List.isEmpty_eq_false.mpr hne]
      simp only [Bool.false_eq_true, if_false]
      rw [hplen]
      rw [if_neg (by omega)]
  · rw [show (1 : Nat) = 2 ^ 0 from by norm_num]
    simp only [sort_uniform_buffer_contents]
    rw [build_sort_uniform_data_pow 0]
    rw [if_pos (by decide)]

set_option maxRecDepth 10000 in
/-- C4: for padded count 16 the generated plan is exactly the ten parameter
blocks `(element_count, block_size, comparison_distance)` =
`(16,2,1), (16,4,2), (16,4,1), (16,8,4), (16,8,2), (16,8,1), (16,16,8),
(16,16,4), (16,16,2), (16,16,1)`, read back in order from the packed
sort-uniform data at 256-byte stride. -/
theorem sort_plan_16 :
    (compute_sort_stages 16).length = 10 ∧
    (List.range 10).map (fun i =>
        (readU32le (build_sort_uniform_data 16 (compute_sort_stages 16)) (i * 256),
         readU32le (build_sort_uniform_data 16 (compute_sort_stages 16)) (i * 256 + 4),
         readU32le (build_sort_uniform_data 16 (compute_sort_stages 16)) (i * 256 + 8))) =
      [(16, 2, 1), (16, 4, 2), (16, 4, 1), (16, 8, 4), (16, 8, 2), (16, 8, 1),
       (16, 16, 8), (16, 16, 4), (16, 16, 2), (16, 16, 1)] := by
  have h16 : (16 : Nat) = 2 ^ 4 := by norm_num
  have hd : build_sort_uniform_data 16 (compute_sort_stages 16) =
      specSortData 16 (paramsFor 4) := by
    rw [h16]
    exact build_sort_uniform_data_pow 4
  constructor
  · rw [h16, compute_sort_stages_pow]
    decide
  · rw [hd]
    decide

/-- C10: for every padded count `2 ^ k` the stage list and the packed
uniform data are consistent — equal stage counts, the `i`-th stage at
dynamic offset `i * 256`, the `i`-th parameter block at byte offset
`i * 256` of the data, and every gap byte between blocks zero. -/
theorem sort_plan_consistent (k : Nat) :
    (compute_sort_stages (2 ^ k)).length = (paramsFor k).length ∧
    compute_sort_stages (2 ^ k) =
      (List.range (paramsFor k).length).map (fun i => SortStage.mk (i * 256)) ∧
    build_sort_uniform_data (2 ^ k) (compute_sort_stages (2 ^ k)) =
      specSortData (2 ^ k) (paramsFor k) ∧
    (∀ i : Nat, i < (compute_sort_stages (2 ^ k)).length →
      ((compute_sort_stages (2 ^ k)).getD i (SortStage.mk 0)).dynamic_offset = i * 256 ∧
      List.take 16 (List.drop (i * 256)
          (build_sort_uniform_data (2 ^ k) (compute_sort_stages (2 ^ k)))) =
        sortUniformBytes (2 ^ k) ((paramsFor k).getD i (0, 0)).1
          ((paramsFor k).getD i (0, 0)).2) ∧
    (∀ j : Nat, j < (build_sort_uniform_data (2 ^ k) (compute_sort_stages (2 ^ k))).length →
      16 ≤ j % 256 →
      (build_sort_uniform_data (2 ^ k) (compute_sort_stages (2 ^ k))).getD j 1 = 0) := by
  have hplen : (paramsFor k).length = countFrom 0 k := paramsFrom_length k 0
  have hstages := compute_sort_stages_pow k
  have hdata := build_sort_uniform_data_pow k
  have hslen : (compute_sort_stages (2 ^ k)).length = countFrom 0 k := by
    rw [hstages]
    simp
  refine ⟨by rw [hslen, hplen], by rw [hstages, hplen], hdata, ?_, ?_⟩
  · intro i hi
    rw [hslen] at hi
    constructor
    · rw [hstages, getD_map_range _ _ _ (by omega)]
    · rw [hdata]
      exact specSortData_block (2 ^ k) (paramsFor k) i (by omega)
  · intro j hj hmod
    rw [hdata] at hj ⊢
    exact specSortData_gap _ _ j hj hmod

set_option maxRecDepth 10000 in
/-- Witness for C10, at padded count 4, stage 1, gap byte 17. -/
theorem sort_plan_consistent_witness :
    1 < (compute_sort_stages (2 ^ 2)).length ∧
    ((compute_sort_stages (2 ^ 2)).getD 1 (SortStage.mk 0)).dynamic_offset = 1 * 256 ∧
    List.take 16 (List.drop (1 * 256)
        (build_sort_uniform_data (2 ^ 2) (compute_sort_stages (2 ^ 2)))) =
      sortUniformBytes (2 ^ 2) ((paramsFor 2).getD 1 (0, 0)).1
        ((paramsFor 2).getD 1 (0, 0)).2 ∧
    17 < (build_sort_uniform_data (2 ^ 2) (compute_sort_stages (2 ^ 2))).length ∧
    (build_sort_uniform_data (2 ^ 2) (compute_sort_stages (2 ^ 2))).getD 17 1 = 0 := by
  have h1 : 1 < (compute_sort_stages (2 ^ 2)).length := by
    rw [compute_sort_stages_pow]
    decide
  have hj : 17 < (build_sort_uniform_data (2 ^ 2) (compute_sort_stages (2 ^ 2))).length := by
    rw [build_sort_uniform_data_pow]
    decide
  have h := sort_plan_consistent 2
  exact ⟨h1, (h.2.2.2.1 1 h1).1, (h.2.2.2.1 1 h1).2, hj, h.2.2.2.2 17 hj (by norm_num)⟩

/-! ## Claim theorems: frame orchestration -/

/-- C6: a pass constructed over zero Gaussians records no command — no
buffer copy, no compute pass, no render pass — and returns successfully, in
every execution context (even one with missing attachments). -/
theorem execute_empty_no_op (ctx : ExecContext) :
    execute (SplatPass.new 0) ctx = ([], none) := rfl

/-- C1 counterexample: with one Gaussian and no active camera, `prepare`
writes nothing, yet `execute` still succeeds and records the indirect-draw
reset copy, the clear-sort and preprocess dispatches, and the render pass —
the frame is not skipped. -/
theorem no_camera_counterexample :
    prepare (SplatPass.new 1) worldNoCamera = [] ∧
    (execute (SplatPass.new 1) ctxBothAttachments).2 = none ∧
    (execute (SplatPass.new 1) ctxBothAttachments).1 =
      [Cmd.copyBufferToBuffer BufferId.drawIndirectResetBuffer 0
          BufferId.drawIndirectBuffer 0 16,
        Cmd.computeDispatch PipelineId.clearSortPipeline [] 1 1 1,
        Cmd.computeDispatch PipelineId.preprocessPipeline [] 1 1 1,
        Cmd.renderDrawIndirect PipelineId.renderPipeline BufferId.drawIndirectBuffer 0] := by
  refine ⟨rfl, by decide, by decide⟩

/-- C1 amended: if the world has no active camera, `prepare` returns early
without writing uniforms; `execute`, however, does not consult the camera:
whenever the Gaussian count is nonzero and both attachments resolve, it
still records exactly the indirect-draw reset copy, the clear-sort
dispatch, the preprocess dispatch, one sort dispatch per stage with that
stage's dynamic offset, and the indirect render pass — and succeeds. -/
theorem no_camera_skips_prepare_only (p : SplatPassState) (world : WorldState)
    (h : query_active_camera_matrices world = none) :
    prepare p world = [] ∧
    ∀ ctx : ExecContext, p.gaussian_count ≠ 0 →
      ctx.colorAttachment = some () → ctx.depthAttachment = some () →
      execute p ctx =
        (Cmd.copyBufferToBuffer BufferId.drawIndirectResetBuffer 0
            BufferId.drawIndirectBuffer 0 16 ::
          Cmd.computeDispatch PipelineId.clearSortPipeline []
            (divCeil p.padded_count WORKGROUP_SIZE) 1 1 ::
          Cmd.computeDispatch PipelineId.preprocessPipeline []
            (divCeil p.gaussian_count WORKGROUP_SIZE) 1 1 ::
          ((p.sort_stages.map fun stage =>
            Cmd.computeDispatch PipelineId.sortPipeline [stage.dynamic_offset]
              (divCeil (p.padded_count / 2) WORKGROUP_SIZE) 1 1) ++
          [Cmd.renderDrawIndirect PipelineId.renderPipeline
            BufferId.drawIndirectBuffer 0]),
          none) := by
  constructor
  · rw [prepare, h]
  · intro ctx hc hcol hdep
    simp only [execute]
    rw [if_neg hc, hcol, hdep]
    rfl

/-- Witness for C1 amended: one Gaussian, no camera, both attachments. -/
theorem no_camera_skips_prepare_only_witness :
    query_active_camera_matrices worldNoCamera = none ∧
    prepare (SplatPass.new 1) worldNoCamera = [] ∧
    (SplatPass.new 1).gaussian_count ≠ 0 ∧
    ctxBothAttachments.colorAttachment = some () ∧
    ctxBothAttachments.depthAttachment = some () ∧
    execute (SplatPass.new 1) ctxBothAttachments =
      (Cmd.copyBufferToBuffer BufferId.drawIndirectResetBuffer 0
          BufferId.drawIndirectBuffer 0 16 ::
        Cmd.computeDispatch PipelineId.clearSortPipeline []
          (divCeil (SplatPass.new 1).padded_count WORKGROUP_SIZE) 1 1 ::
        Cmd.computeDispatch PipelineId.preprocessPipeline []
          (divCeil (SplatPass.new 1).gaussian_count WORKGROUP_SIZE) 1 1 ::
        (((SplatPass.new 1).sort_stages.map fun stage =>
          Cmd.computeDispatch PipelineId.sortPipeline [stage.dynamic_offset]
            (divCeil ((SplatPass.new 1).padded_count / 2) WORKGROUP_SIZE) 1 1) ++
        [Cmd.renderDrawIndirect PipelineId.renderPipeline
          BufferId.drawIndirectBuffer 0]),
        none) := by
  refine ⟨rfl, (no_camera_skips_prepare_only (SplatPass.new 1) worldNoCamera rfl).1,
    by decide, rfl, rfl, ?_⟩
  exact (no_camera_skips_prepare_only (SplatPass.new 1) worldNoCamera rfl).2
    ctxBothAttachments (by decide) rfl rfl

/-! ## Claim theorems: layout adapter -/

/-- Componentwise division scales the quaternion's squared norm by the
square of the divisor (also when the divisor is zero, where both sides
vanish). -/
lemma rotNormSq_div (q : ℝ × ℝ × ℝ × ℝ) (s : ℝ) :
    rotNormSq (q.1 / s, q.2.1 / s, q.2.2.1 / s, q.2.2.2 / s) = rotNormSq q / (s * s) := by
  rw [rotNormSq, rotNormSq]
  rw [div_mul_div_comm, div_mul_div_comm, div_mul_div_comm, div_mul_div_comm,
    div_add_div_same, div_add_div_same, div_add_div_same]

/-- C5 counterexample: for the stored Gaussian with quaternion
`(0, 0, 0, 0)` the clamp at `1e-8` makes the adapter emit the zero
quaternion, whose length 0 lies outside `[1 − 1e-6, 1 + 1e-6]`.  (At this
input every `f32` operation the Rust performs is exact, so the real-valued
model agrees with the machine computation.) -/
theorem adapter_counterexample :
    quatNorm (gpuOfRaw rawZeroQuat) = 0 ∧
    ¬ (1 - 1 / 1000000 ≤ quatNorm (gpuOfRaw rawZeroQuat)) := by
  have h : quatNorm (gpuOfRaw rawZeroQuat) = 0 := by
    simp [quatNorm, gpuOfRaw, rawZeroQuat, rotNormSq]
  exact ⟨h, by rw [h]; norm_num⟩

/-- C5 amended: the adapter reads the quaternion as `(w, x, y, z)`, divides
it componentwise by `L = max(sqrt(w²+x²+y²+z²), 1e-8)`, zeroes both pads,
and copies position, DC colour, opacity and log-scale unchanged; it is total
(never fails); and whenever the stored quaternion's length is at least
`1e-8` the adapted quaternion's length lies in `[1 − 1e-6, 1 + 1e-6]` (it is
exactly 1 in the real-valued model). -/
theorem adapter_correct (raw : RawGaussian) :
    (gpuOfRaw raw).position = raw.position ∧
    (gpuOfRaw raw).opacity_logit = raw.opacity ∧
    (gpuOfRaw raw).sh_dc = raw.sh_dc ∧
    (gpuOfRaw raw).scale_log = raw.scale ∧
    (gpuOfRaw raw).pad0 = 0 ∧
    (gpuOfRaw raw).pad1 = 0 ∧
    (gpuOfRaw raw).rotation =
      (raw.rotation.1 / adaptLength raw, raw.rotation.2.1 / adaptLength raw,
        raw.rotation.2.2.1 / adaptLength raw, raw.rotation.2.2.2 / adaptLength raw) ∧
    (1 / 100000000 ≤ Real.sqrt (rotNormSq raw.rotation) →
      1 - 1 / 1000000 ≤ quatNorm (gpuOfRaw raw) ∧
      quatNorm (gpuOfRaw raw) ≤ 1 + 1 / 1000000) := by
  refine ⟨rfl, rfl, rfl, rfl, rfl, rfl, rfl, ?_⟩
  intro h
  have hs0 : 0 ≤ rotNormSq raw.rotation := by
    rw [rotNormSq]
    have h1 := mul_self_nonneg raw.rotation.1
    have h2 := mul_self_nonneg raw.rotation.2.1
    have h3 := mul_self_nonneg raw.rotation.2.2.1
    have h4 := mul_self_nonneg raw.rotation.2.2.2
    linarith
  have hspos : 0 < Real.sqrt (rotNormSq raw.rotation) :=
    lt_of_lt_of_le (by norm_num) h
  have hmax : adaptLength raw = Real.sqrt (rotNormSq raw.rotation) :=
    max_eq_left (le_trans (by norm_num) h)
  have hss : Real.sqrt (rotNormSq raw.rotation) * Real.sqrt (rotNormSq raw.rotation) =
      rotNormSq raw.rotation := Real.mul_self_sqrt hs0
  have hpos : 0 < rotNormSq raw.rotation := hss ▸ mul_pos hspos hspos
  have hrot : rotNormSq ((gpuOfRaw raw).rotation) = 1 := by
    show rotNormSq (raw.rotation.1 / adaptLength raw, raw.rotation.2.1 / adaptLength raw,
      raw.rotation.2.2.1 / adaptLength raw, raw.rotation.2.2.2 / adaptLength raw) = 1
    rw [rotNormSq_div, hmax, hss, div_self (ne_of_gt hpos)]
  have hq : quatNorm (gpuOfRaw raw) = 1 := by
    rw [quatNorm, hrot, Real.sqrt_one]
  rw [hq]
  constructor <;> norm_num

/-- Witness for C5 amended: the unit quaternion `(1, 0, 0, 0)`. -/
theorem adapter_correct_witness :
    1 / 100000000 ≤ Real.sqrt (rotNormSq rawUnitQuat.rotation) ∧
    1 - 1 / 1000000 ≤ quatNorm (gpuOfRaw rawUnitQuat) ∧
    quatNorm (gpuOfRaw rawUnitQuat) ≤ 1 + 1 / 1000000 := by
  have h1 : rotNormSq rawUnitQuat.rotation = 1 := by
    norm_num [rawUnitQuat, rotNormSq]
  have h : 1 / 100000000 ≤ Real.sqrt (rotNormSq rawUnitQuat.rotation) := by
    rw [h1, Real.sqrt_one]
    norm_num
  have h2 := (adapter_correct rawUnitQuat).2.2.2.2.2.2.2 h
  exact ⟨h, h2.1, h2.2⟩

/-! ## Claim theorems: PLY loader -/

instance needleAtDecidable (needle data : List Nat) (p : Nat) :
    Decidable (needleAt needle data p) := by
  unfold needleAt
  infer_instance

/-- A successful `findSubseqIdx` is a match, and the earliest one. -/
lemma findSubseqIdx_some (needle : List Nat) : ∀ data : List Nat, ∀ p : Nat,
    findSubseqIdx needle data = some p →
    needleAt needle data p ∧ ∀ q : Nat, q < p → ¬ needleAt needle data q := by
  intro data
  induction data with
  | nil =>
    intro p hp
    simp [findSubseqIdx] at hp
  | cons x rest ih =>
    intro p hp
    rw [findSubseqIdx] at hp
    by_cases hs : listStartsWith needle (x :: rest) = true
    · rw [if_pos hs] at hp
      have hp0 : p = 0 := by
        injection hp with h
        omega
      subst hp0
      refine ⟨?_, fun q hq => absurd hq (by omega)⟩
      unfold needleAt
      rwa [List.drop_zero]
    · rw [if_neg hs] at hp
      cases hres : findSubseqIdx needle rest with
      | none =>
        rw [hres] at hp
        simp at hp
      | some p' =>
        rw [hres] at hp
        simp only [Option.map_some'] at hp
        obtain ⟨h1, h2⟩ := ih p' hres
        have hp1 : p = p' + 1 := by
          injection hp with h
          omega
        subst hp1
        constructor
        · unfold needleAt
          rw [List.drop_succ_cons]
          exact h1
        · intro q hq
          cases q with
          | zero =>
            unfold needleAt
            rw [List.drop_zero]
            simpa using hs
          | succ q' =>
            unfold needleAt
            rw [List.drop_succ_cons]
            exact h2 q' (by omega)

/-- If a nonempty needle matches anywhere, `findSubseqIdx` finds some
position. -/
lemma findSubseqIdx_complete (needle : List Nat) (hne : needle ≠ []) :
    ∀ data : List Nat, ∀ p : Nat, needleAt needle data p →
    ∃ q : Nat, findSubseqIdx needle data = some q := by
  intro data
  induction data with
  | nil =>
    intro p hp
    exfalso
    unfold needleAt at hp
    rw [List.drop_nil] at hp
    cases needle with
    | nil => exact hne rfl
    | cons n ns => simp [listStartsWith] at hp
  | cons x rest ih =>
    intro p hp
    rw [findSubseqIdx]
    by_cases hs : listStartsWith needle (x :: rest) = true
    · rw [if_pos hs]
      exact ⟨0, rfl⟩
    · rw [if_neg hs]
      cases p with
      | zero =>
        exfalso
        unfold needleAt at hp
        rw [List.drop_zero] at hp
        exact hs hp
      | succ p' =>
        have hp' : needleAt needle rest p' := by
          unfold needleAt at hp ⊢
          rwa [List.drop_succ_cons] at hp
        obtain ⟨q, hq⟩ := ih p' hp'
        rw [hq]
        exact ⟨q + 1, rfl⟩

/-- C9: `find_header_end` reports the first occurrence of
`end_header\r\n` anywhere in the input whenever one exists, and only
otherwise the first occurrence of `end_header\n`; concretely, on the input
whose LF header terminator sits at position 0 and whose body bytes spell
`end_header\r\n` at position 11, it returns position 11 with line-ending
length 2 — the later CRLF occurrence, not the earlier LF terminator. -/
theorem find_header_end_prefers_crlf :
    (∀ data p, find_header_end data = some (p, 2) →
      needleAt endHeaderCrlfNeedle data p ∧
        ∀ q, q < p → ¬ needleAt endHeaderCrlfNeedle data q) ∧
    (∀ data p, needleAt endHeaderCrlfNeedle data p →
      ∃ q, find_header_end data = some (q, 2)) ∧
    (∀ data p, find_header_end data = some (p, 1) →
      (∀ q, ¬ needleAt endHeaderCrlfNeedle data q) ∧
        needleAt endHeaderLfNeedle data p ∧
        ∀ q, q < p → ¬ needleAt endHeaderLfNeedle data q) ∧
    find_header_end plyCrlfInBody = some (11, 2) ∧
    needleAt endHeaderLfNeedle plyCrlfInBody 0 := by
  refine ⟨?_, ?_, ?_, by decide, by decide⟩
  · intro data p h
    rw [find_header_end] at h
    cases hc : findSubseqIdx endHeaderCrlfNeedle data with
    | some p0 =>
      rw [hc] at h
      simp only [Option.some.injEq, Prod.mk.injEq] at h
      obtain ⟨hpp, _⟩ := h
      subst hpp
      exact findSubseqIdx_some _ data p0 hc
    | none =>
      rw [hc] at h
      cases hl : findSubseqIdx endHeaderLfNeedle data with
      | some p1 =>
        rw [hl] at h
        simp at h
      | none =>
        rw [hl] at h
        simp at h
  · intro data p hp
    obtain ⟨q, hq⟩ := findSubseqIdx_complete endHeaderCrlfNeedle (by decide) data p hp
    refine ⟨q, ?_⟩
    rw [find_header_end, hq]
  · intro data p h
    rw [find_header_end] at h
    cases hc : findSubseqIdx endHeaderCrlfNeedle data with
    | some p0 =>
      rw [hc] at h
      simp at h
    | none =>
      rw [hc] at h
      cases hl : findSubseqIdx endHeaderLfNeedle data with
      | some p1 =>
        rw [hl] at h
        simp only [Option.some.injEq, Prod.mk.injEq] at h
        obtain ⟨hpp, _⟩ := h
        subst hpp
        have hlf := findSubseqIdx_some _ data p1 hl
        refine ⟨?_, hlf.1, hlf.2⟩
        intro q hq
        obtain ⟨q', hq'⟩ := findSubseqIdx_complete endHeaderCrlfNeedle (by decide) data q hq
        rw [hq'] at hc
        exact Option.noConfusion hc
      | none =>
        rw [hl] at h
        simp at h

/-- Witness for C9: the CRLF needle indeed matches the concrete input at 11
and not at 3. -/
theorem find_header_end_prefers_crlf_witness :
    needleAt endHeaderCrlfNeedle plyCrlfInBody 11 ∧
    ¬ needleAt endHeaderCrlfNeedle plyCrlfInBody 3 := by
  have h := find_header_end_prefers_crlf
  have h11 := h.1 plyCrlfInBody 11 (by decide)
  exact ⟨h11.1, h11.2 3 (by norm_num)⟩

/-- `chunkRecords` always yields the demanded number of records. -/
lemma chunkRecords_length : ∀ n : Nat, ∀ l : List Nat, (chunkRecords n l).length = n := by
  intro n
  induction n with
  | zero => intro l; rfl
  | succ n ih =>
    intro l
    rw [chunkRecords, List.length_cons, ih]

/-- C7 amended: once the header pipeline yields the declared count `n`, the
loader returns exactly `n` records whenever it succeeds, and loading is
fatal exactly when the body holds fewer than `n × 248` bytes (a larger body
is not fatal). -/
theorem load_ply_count_and_failure (data : List Nat)
    (header_end line_ending_len n : Nat) (header : List Nat)
    (hfind : find_header_end data = some (header_end, line_ending_len))
    (hutf : utf8Decode (data.take header_end) = some header)
    (hcount : parse_vertex_count (strLines header) = some n) :
    (∀ recs, load_ply_from_bytes data = some recs → recs.length = n) ∧
    (load_ply_from_bytes data = none ↔
      (data.drop (header_end + 10 + line_ending_len)).length < n * 248) := by
  have hload : load_ply_from_bytes data =
      if n * 248 ≤ (data.drop (header_end + 10 + line_ending_len)).length then
        some (chunkRecords n ((data.drop (header_end + 10 + line_ending_len)).take (n * 248)))
      else none := by
    rw [load_ply_from_bytes, hfind]
    simp only [hutf, hcount]
  by_cases hle : n * 248 ≤ (data.drop (header_end + 10 + line_ending_len)).length
  · rw [hload, if_pos hle]
    constructor
    · intro recs hrecs
      have hchunk : chunkRecords n
          ((data.drop (header_end + 10 + line_ending_len)).take (n * 248)) = recs := by
        injection hrecs
      rw [← hchunk, chunkRecords_length]
    · constructor
      · intro hcontra
        exact Option.noConfusion hcontra
      · intro hcontra
        omega
  · rw [hload, if_neg hle]
    refine ⟨fun recs hrecs => Option.noConfusion hrecs, ?_⟩
    constructor
    · intro _
      omega
    · intro _
      rfl

set_option maxRecDepth 10000 in
/-- Witness for C7 amended: a one-vertex file with an exactly 248-byte
body loads as one record. -/
theorem load_ply_count_and_failure_witness :
    load_ply_from_bytes plyOneVertex248 = some [List.replicate 248 0] ∧
    [List.replicate 248 0].length = 1 ∧
    ¬ load_ply_from_bytes plyOneVertex248 = none := by
  have h := load_ply_count_and_failure plyOneVertex248 17 1 1 (evLine [49])
    (by decide) (by decide) (by decide)
  have hl : load_ply_from_bytes plyOneVertex248 = some [List.replicate 248 0] := by decide
  exact ⟨hl, h.1 _ hl, fun hn => absurd (h.2.mp hn) (by decide)⟩

/-- C7 counterexample: an input declaring 0 vertices whose body holds one
byte — so the body does not contain exactly `0 × 248` bytes — still loads
successfully (as the empty record list) instead of being fatal. -/
theorem load_ply_mismatch_counterexample :
    find_header_end plyZeroVertex1 = some (17, 1) ∧
    utf8Decode (plyZeroVertex1.take 17) = some (evLine [48]) ∧
    parse_vertex_count (strLines (evLine [48])) = some 0 ∧
    (plyZeroVertex1.drop 28).length = 1 ∧
    load_ply_from_bytes plyZeroVertex1 = some [] := by
  decide

/-- C8: whenever the body holds at least `n × 248` bytes, loading succeeds
and returns exactly the first `n` 248-byte records of the body, silently
ignoring any trailing bytes; it fails only when the body is strictly
smaller. -/
theorem load_ply_trailing_ignored (data : List Nat)
    (header_end line_ending_len n : Nat) (header : List Nat)
    (hfind : find_header_end data = some (header_end, line_ending_len))
    (hutf : utf8Decode (data.take header_end) = some header)
    (hcount : parse_vertex_count (strLines header) = some n)
    (hlen : n * 248 ≤ (data.drop (header_end + 10 + line_ending_len)).length) :
    load_ply_from_bytes data =
      some (chunkRecords n ((data.drop (header_end + 10 + line_ending_len)).take (n * 248))) ∧
    (chunkRecords n ((data.drop (header_end + 10 + line_ending_len)).take (n * 248))).length
      = n ∧
    load_ply_from_bytes data ≠ none := by
  have hload : load_ply_from_bytes data =
      some (chunkRecords n ((data.drop (header_end + 10 + line_ending_len)).take (n * 248))) := by
    rw [load_ply_from_bytes, hfind]
    simp only [hutf, hcount]
    rw [if_pos hlen]
  exact ⟨hload, chunkRecords_length n _, by rw [hload]; exact Option.noConfusion⟩

set_option maxRecDepth 10000 in
/-- Witness for C8: a one-vertex file with a 249-byte body loads as the
first 248 bytes' record, ignoring the trailing byte. -/
theorem load_ply_trailing_ignored_witness :
    1 * 248 ≤ (plyOneVertex249.drop (17 + 10 + 1)).length ∧
    load_ply_from_bytes plyOneVertex249 =
      some (chunkRecords 1 ((plyOneVertex249.drop (17 + 10 + 1)).take (1 * 248))) := by
  have h := load_ply_trailing_ignored plyOneVertex249 17 1 1 (evLine [49])
    (by decide) (by decide) (by decide) (by decide)
  exact ⟨by decide, h.1⟩

end GaussianSplats
